import Mathlib

/-!
Verification development for the Coinbase early-risers scanner
(`streamlit_app.py`).  Python floats are modelled as rationals; the
float `nan` marker produced by `pct` (and the `x == x` validity tests)
is modelled as `Option ℚ` with `none` for `nan`.  Python's stable
`sorted(key, reverse=True)` is modelled by `List.insertionSort` with
the reversed lexicographic comparison, which places each element after
all previously-listed elements whose key is ≥ its own, i.e. is the
stable descending sort.
-/

set_option linter.unusedVariables false

/-- One OHLCV bar: the source indexes candle rows as
`c[0]=timestamp, c[1]=open, c[2]=high, c[3]=low, c[4]=close, c[5]=volume`. -/
structure Candle where
  ts : ℚ
  o : ℚ
  hi : ℚ
  lo : ℚ
  c : ℚ
  v : ℚ
deriving DecidableEq

/-- Per-symbol input of one loop iteration of `scan`: the fetched candle
series (empty when `fetch_ohlcv_safe` failed) and the ticker price
(`none` when `fetch_ticker` raised, in which case the code falls back to
the last close). -/
structure SymbolData where
  sym : String
  ohlcv : List Candle
  ticker : Option ℚ
deriving DecidableEq

/-- Module-level settings of `streamlit_app.py`, gathered into a record so
that claims about configured thresholds can quantify over them. -/
structure Config where
  MIN_PRICE : ℚ
  MAX_PRICE : ℚ
  MIN_5M_PCT : ℚ
  MIN_15M_PCT : ℚ
  NEAR_HIGH_PCT : ℚ
  VOL_SURGE_X : ℚ
  EARLY_NEAR_LOCAL_PCT_MAX : ℚ
  EARLY_5M_MIN : ℚ
  EARLY_5M_MAX : ℚ
  EARLY_15M_MAX : ℚ
  EARLY_VOL_X_MIN : ℚ
  EARLY_TOP : ℕ
  BOTTOM_LOOKBACK_MIN : ℕ
  BOTTOM_NEAR_LOW_PCT_MAX : ℚ
  BOTTOM_UP1M_MIN : ℚ
  BOTTOM_5M_MIN : ℚ
  BOTTOM_5M_MAX : ℚ
  BOTTOM_VOL_X_MIN : ℚ
  BOTTOM_TOP : ℕ
  COOLDOWN_MIN : ℚ
deriving DecidableEq

/-- The settings block of the source file (lines 8-39). -/
def defaultConfig : Config where
  MIN_PRICE := 3/100
  MAX_PRICE := 1000
  MIN_5M_PCT := 12/10
  MIN_15M_PCT := 22/10
  NEAR_HIGH_PCT := 3
  VOL_SURGE_X := 22/10
  EARLY_NEAR_LOCAL_PCT_MAX := 5
  EARLY_5M_MIN := 2/10
  EARLY_5M_MAX := 9/10
  EARLY_15M_MAX := 18/10
  EARLY_VOL_X_MIN := 15/10
  EARLY_TOP := 15
  BOTTOM_LOOKBACK_MIN := 90
  BOTTOM_NEAR_LOW_PCT_MAX := 12/10
  BOTTOM_UP1M_MIN := 8/100
  BOTTOM_5M_MIN := 15/100
  BOTTOM_5M_MAX := 6/10
  BOTTOM_VOL_X_MIN := 12/10
  BOTTOM_TOP := 10
  COOLDOWN_MIN := 10

/-- `pct(curr, prev) = (curr - prev) / prev * 100.0`; the `except` branch
returns `nan` (modelled `none`), which for rational inputs is reached
exactly when `prev = 0` (ZeroDivisionError). -/
def pct (curr prev : ℚ) : Option ℚ :=
  if prev = 0 then none else some ((curr - prev) / prev * 100)

/-- Python `l[-n:]` for `n > 0`: the last `n` entries (the whole list when
it is shorter than `n`). -/
def lastSlice (n : ℕ) (l : List ℚ) : List ℚ :=
  l.drop (l.length - n)

/-- `min` of a Python list (callers guard emptiness; `0` for `[]`). -/
def listMin : List ℚ → ℚ
  | [] => 0
  | h :: t => t.foldl min h

/-- `max` of a Python list (callers guard emptiness; `0` for `[]`). -/
def listMax : List ℚ → ℚ
  | [] => 0
  | h :: t => t.foldl max h

/-- `statistics.median`: sort ascending; middle element for odd length,
mean of the two middle elements for even length. -/
def median (l : List ℚ) : ℚ :=
  let s := List.insertionSort (· ≤ ·) l
  let n := l.length
  if n = 0 then 0
  else if n % 2 = 1 then s.getD (n / 2) 0
  else (s.getD (n / 2 - 1) 0 + s.getD (n / 2) 0) / 2

/-- `vol_med = max(1e-9, float(median(vols)))` (line 185). -/
def vol_med_of (vols : List ℚ) : ℚ :=
  max (1 / 1000000000) (median vols)

/-- `volx = float(sum(vols[-5:])) / (vol_med * 5.0)` (lines 196-197). -/
def volx_of (vols : List ℚ) : ℚ :=
  (lastSlice 5 vols).sum / (vol_med_of vols * 5)

/-- The closure `last_n(n)` of `scan` (lines 187-190):
`nan` when fewer than `n+1` closes exist, otherwise
`pct(closes[-1], closes[-(n+1)])`. -/
def last_n (closes : List ℚ) (n : ℕ) : Option ℚ :=
  if closes.length < n + 1 then none
  else pct (closes.getD (closes.length - 1) 0) (closes.getD (closes.length - (n + 1)) 0)

/-- `last_n_green_ratio(ohlcv, n)` (lines 132-136): fraction of the last
`n` candles with `close >= open`; `0.0` when fewer than `n` candles. -/
def last_n_green_ratio (ohlcv : List Candle) (n : ℕ) : ℚ :=
  if ohlcv.length < n then 0
  else (((ohlcv.drop (ohlcv.length - n)).filter (fun cdl => decide (cdl.o ≤ cdl.c))).length : ℚ) / n

/-- Consecutive strict increase, `all(seq[i] > seq[i-1])`. -/
def strictUp : List ℚ → Bool
  | a :: b :: t => decide (a < b) && strictUp (b :: t)
  | _ => true

/-- `is_strict_up(closes, n)` (lines 138-142): `False` when fewer than `n`
closes, else the last `n` closes strictly increase. -/
def is_strict_up (closes : List ℚ) (n : ℕ) : Bool :=
  if closes.length < n then false
  else strictUp (closes.drop (closes.length - n))

/-- `too_old(candles, max_age_min)` (lines 125-130), with the current
wall-clock epoch milliseconds passed explicitly. -/
def too_old (now_ms : ℚ) (candles : List Candle) (max_age_min : ℚ) : Bool :=
  match candles with
  | [] => true
  | _ => decide (max_age_min < (now_ms - (candles.getLastD ⟨0, 0, 0, 0, 0, 0⟩).ts) / 60000)

/-- Python `round(x, 2)` (round half to even, at two decimals), as used
when the scanner builds its output rows. -/
def roundHalfEven (x : ℚ) : ℤ :=
  if x - ⌊x⌋ < 1/2 then ⌊x⌋
  else if 1/2 < x - ⌊x⌋ then ⌊x⌋ + 1
  else if ⌊x⌋ % 2 = 0 then ⌊x⌋ else ⌊x⌋ + 1

/-- Two-decimal rounding `round(x, 2)`. -/
def round2 (x : ℚ) : ℚ :=
  (roundHalfEven (x * 100) : ℚ) / 100

/-- The per-symbol derived values of the `scan` loop body (lines 171-204).
`closes` is retained because the bottoming rule recomputes a window
over it. -/
structure Indicators where
  closes : List ℚ
  last_close : ℚ
  p1 : Option ℚ
  p5 : Option ℚ
  p15 : Option ℚ
  p60 : Option ℚ
  volx : ℚ
  dist_local : ℚ
  near_local : ℚ
  green3 : ℚ
  strict3 : Bool
deriving DecidableEq

/-- Indicator computation of the loop body; depends only on the fetched
data, not on any threshold setting. -/
def indicatorsOf (d : SymbolData) : Indicators :=
  let closes := d.ohlcv.map (·.c)
  let highs := d.ohlcv.map (·.hi)
  let vols := d.ohlcv.map (·.v)
  let last_close :=
    match d.ticker with
    | some t => t
    | none => closes.getLastD 0
  let p1 :=
    if 2 ≤ closes.length then
      pct (closes.getD (closes.length - 1) 0) (closes.getD (closes.length - 2) 0)
    else none
  let px_local_high := if highs.isEmpty then 0 else listMax highs
  let dist_local :=
    if 0 < px_local_high then (px_local_high - last_close) / px_local_high * 100 else 100
  { closes := closes
    last_close := last_close
    p1 := p1
    p5 := last_n closes 5
    p15 := last_n closes 15
    p60 := last_n closes 60
    volx := volx_of vols
    dist_local := dist_local
    near_local := 100 - dist_local
    green3 := last_n_green_ratio d.ohlcv 3
    strict3 := is_strict_up closes 3 }

/-- One output row appended to `bottoms` / `early` / `finals`
(the dictionaries built at lines 218-225, 234-241, 250-257; an entry is
`none` where the source stores Python `None` for an invalid value). -/
structure Row where
  Symbol : String
  Price : ℚ
  p1 : Option ℚ
  p5 : Option ℚ
  p15 : Option ℚ
  nearHigh : Option ℚ
  volx : Option ℚ
deriving DecidableEq

/-- Row construction shared by the three tiers (the finals row writes
`round(100.0 - dist_local, 2)`, which equals `round(near_local, 2)`). -/
def rowOf (sym : String) (i : Indicators) : Row where
  Symbol := sym
  Price := round2 i.last_close
  p1 := i.p1.map round2
  p5 := i.p5.map round2
  p15 := i.p15.map round2
  nearHigh := some (round2 i.near_local)
  volx := some (round2 i.volx)

/-- `loc_low = min(window) if window else 0.0` (line 211). -/
def loc_low_of (window : List ℚ) : ℚ :=
  if window.isEmpty then 0 else listMin window

/-- `dist_low = (last_close - loc_low) / (loc_low or 1) * 100.0 if loc_low > 0 else 0.0`
(line 212): distance above the local low, defined to be `0` when the
window minimum is zero or negative. -/
def dist_low_calc (last_close loc_low : ℚ) : ℚ :=
  if 0 < loc_low then (last_close - loc_low) / loc_low * 100 else 0

/-- Bottoming rule set (lines 208-217), evaluated for a symbol's
indicators.  The source also gates the whole block by `BOTTOM_TOP > 0`;
that gate lives in `processSymbol`. -/
def bottomPass (cfg : Config) (i : Indicators) : Bool :=
  let lookback := min cfg.BOTTOM_LOOKBACK_MIN (i.closes.length - 1)
  if 30 ≤ lookback then
    let window := lastSlice lookback i.closes
    let dist_low := dist_low_calc i.last_close (loc_low_of window)
    decide (dist_low ≤ cfg.BOTTOM_NEAR_LOW_PCT_MAX) &&
    (match i.p1 with
      | some v => decide (cfg.BOTTOM_UP1M_MIN ≤ v)
      | none => false) &&
    (match i.p5 with
      | some v => decide (cfg.BOTTOM_5M_MIN ≤ v ∧ v ≤ cfg.BOTTOM_5M_MAX)
      | none => false) &&
    decide (cfg.BOTTOM_VOL_X_MIN ≤ i.volx) &&
    decide ((2 : ℚ)/3 ≤ i.green3)
  else false

/-- Early-watchlist rule set (lines 228-233). -/
def earlyPass (cfg : Config) (i : Indicators) : Bool :=
  decide (i.dist_local ≤ cfg.EARLY_NEAR_LOCAL_PCT_MAX) &&
  (match i.p5 with
    | some v => decide (cfg.EARLY_5M_MIN ≤ v ∧ v ≤ cfg.EARLY_5M_MAX)
    | none => false) &&
  (match i.p15 with
    | some v => decide (v ≤ cfg.EARLY_15M_MAX)
    | none => false) &&
  decide (cfg.EARLY_VOL_X_MIN ≤ i.volx) &&
  decide ((2 : ℚ)/3 ≤ i.green3) &&
  i.strict3

/-- Clean-risers (final) rule set (lines 244-249). -/
def finalPass (cfg : Config) (i : Indicators) : Bool :=
  (match i.p5 with
    | some v => decide (cfg.MIN_5M_PCT ≤ v)
    | none => false) &&
  (match i.p15 with
    | some v => decide (cfg.MIN_15M_PCT ≤ v)
    | none => false) &&
  decide (cfg.VOL_SURGE_X ≤ i.volx) &&
  decide (i.dist_local ≤ cfg.NEAR_HIGH_PCT) &&
  decide ((2 : ℚ)/3 ≤ i.green3) &&
  i.strict3

/-- One iteration of the `scan` loop (lines 165-257): `none` when the
symbol is skipped (stale or short series, or price out of range),
otherwise the three tier-membership flags plus the output row. -/
def processSymbol (cfg : Config) (now_ms : ℚ) (d : SymbolData) :
    Option (Bool × Bool × Bool × Row) :=
  if too_old now_ms d.ohlcv 6 ∨ d.ohlcv.length < 60 then none
  else if (indicatorsOf d).last_close < cfg.MIN_PRICE ∨
      cfg.MAX_PRICE < (indicatorsOf d).last_close then none
  else
    some (decide (0 < cfg.BOTTOM_TOP) && bottomPass cfg (indicatorsOf d),
          earlyPass cfg (indicatorsOf d), finalPass cfg (indicatorsOf d),
          rowOf d.sym (indicatorsOf d))

/-- Accumulation of the three row lists over the symbol sequence, in
provider order (appends become conses onto the rows of later symbols). -/
def classify (cfg : Config) (now_ms : ℚ) : List SymbolData → List Row × List Row × List Row
  | [] => ([], [], [])
  | d :: rest =>
    let r := classify cfg now_ms rest
    match processSymbol cfg now_ms d with
    | none => r
    | some (b, e, f, row) =>
      (if b then row :: r.1 else r.1,
       if e then row :: r.2.1 else r.2.1,
       if f then row :: r.2.2 else r.2.2)

/-- Lexicographic comparison of Python 3-tuples of floats, as performed by
`sorted` on the sort keys. -/
def lexLe (a b : ℚ × ℚ × ℚ) : Prop :=
  a.1 < b.1 ∨ (a.1 = b.1 ∧ (a.2.1 < b.2.1 ∨ (a.2.1 = b.2.1 ∧ a.2.2 ≤ b.2.2)))

instance : DecidableRel lexLe := fun a b => by
  unfold lexLe; exact inferInstance

theorem lexLe_refl (a : ℚ × ℚ × ℚ) : lexLe a a :=
  Or.inr ⟨rfl, Or.inr ⟨rfl, le_refl _⟩⟩

theorem lexLe_total (a b : ℚ × ℚ × ℚ) : lexLe a b ∨ lexLe b a := by
  unfold lexLe
  rcases lt_trichotomy a.1 b.1 with h1 | h1 | h1
  · exact Or.inl (Or.inl h1)
  · rcases lt_trichotomy a.2.1 b.2.1 with h2 | h2 | h2
    · exact Or.inl (Or.inr ⟨h1, Or.inl h2⟩)
    · rcases le_total a.2.2 b.2.2 with h3 | h3
      · exact Or.inl (Or.inr ⟨h1, Or.inr ⟨h2, h3⟩⟩)
      · exact Or.inr (Or.inr ⟨h1.symm, Or.inr ⟨h2.symm, h3⟩⟩)
    · exact Or.inr (Or.inr ⟨h1.symm, Or.inl h2⟩)
  · exact Or.inr (Or.inl h1)

theorem lexLe_trans {a b c : ℚ × ℚ × ℚ} (hab : lexLe a b) (hbc : lexLe b c) :
    lexLe a c := by
  unfold lexLe at *
  rcases hab with h1 | ⟨e1, h1⟩
  · rcases hbc with h2 | ⟨e2, h2⟩
    · exact Or.inl (h1.trans h2)
    · exact Or.inl (e2 ▸ h1)
  · rcases hbc with h2 | ⟨e2, h2⟩
    · exact Or.inl (e1 ▸ h2)
    · refine Or.inr ⟨e1.trans e2, ?_⟩
      rcases h1 with h1 | ⟨f1, h1⟩
      · rcases h2 with h2 | ⟨f2, h2⟩
        · exact Or.inl (h1.trans h2)
        · exact Or.inl (f2 ▸ h1)
      · rcases h2 with h2 | ⟨f2, h2⟩
        · exact Or.inl (f1 ▸ h2)
        · exact Or.inr ⟨f1.trans f2, h1.trans h2⟩

/-- "a is allowed before b" for a descending sort by `key`: the key of `b`
is lexicographically ≤ the key of `a`. -/
def keyGE (key : Row → ℚ × ℚ × ℚ) (a b : Row) : Prop :=
  lexLe (key b) (key a)

instance (key : Row → ℚ × ℚ × ℚ) : DecidableRel (keyGE key) := fun a b => by
  unfold keyGE; exact inferInstance

instance (key : Row → ℚ × ℚ × ℚ) : IsTotal Row (keyGE key) :=
  ⟨fun a b => (lexLe_total (key b) (key a)).imp id id⟩

instance (key : Row → ℚ × ℚ × ℚ) : IsTrans Row (keyGE key) :=
  ⟨fun _ _ _ hab hbc => lexLe_trans hbc hab⟩

/-- `sorted(rows, key=key, reverse=True)`: stable descending sort. -/
def sortDesc (key : Row → ℚ × ℚ × ℚ) (l : List Row) : List Row :=
  List.insertionSort (keyGE key) l

/-- Sort key of the early and finals lists (lines 262-263):
`(r.get("15m%") or 0, r.get("5m%") or 0, r.get("Vol5m_x") or 0)`. -/
def rankKey (r : Row) : ℚ × ℚ × ℚ :=
  (r.p15.getD 0, r.p5.getD 0, r.volx.getD 0)

/-- Sort key of the bottoms list (line 261):
`(r.get("5m%") or 0, r.get("Vol5m_x") or 0, -(r.get("NearHigh%") or 0))`. -/
def bottomRankKey (r : Row) : ℚ × ℚ × ℚ :=
  (r.p5.getD 0, r.volx.getD 0, -(r.nearHigh.getD 0))

/-- The "Sorts" stage of `scan` (lines 259-264): bottoms sorted by
`bottomRankKey` and truncated to `BOTTOM_TOP` (only when `BOTTOM_TOP > 0`),
early sorted by `rankKey` and truncated to `EARLY_TOP`, finals sorted by
`rankKey` with no truncation. -/
def scanRank (cfg : Config) (bottoms early finals : List Row) :
    List Row × List Row × List Row :=
  ((if 0 < cfg.BOTTOM_TOP then (sortDesc bottomRankKey bottoms).take cfg.BOTTOM_TOP
    else bottoms),
   (sortDesc rankKey early).take cfg.EARLY_TOP,
   sortDesc rankKey finals)

/-- A full scan cycle over the fetched data: classification followed by the
sorting stage; returns `(bottoms, early, finals)` as `scan` does. -/
def scan (cfg : Config) (now_ms : ℚ) (data : List SymbolData) :
    List Row × List Row × List Row :=
  let r := classify cfg now_ms data
  scanRank cfg r.1 r.2.1 r.2.2

/-- A ranked list sorted in descending lexicographic order of `key`. -/
def SortedDescBy (key : Row → ℚ × ℚ × ℚ) (l : List Row) : Prop :=
  l.Pairwise (keyGE key)

instance (key : Row → ℚ × ℚ × ℚ) (l : List Row) : Decidable (SortedDescBy key l) :=
  List.instDecidablePairwise l

/-- Process-lifetime notification state (`st.session_state`, lines 274-277). -/
structure NotifState where
  seen_early : Finset String
  last_report_ts : ℚ
deriving DecidableEq

/-- Session-state initialisation: empty seen set, `last_report_ts = 0.0`. -/
def initState : NotifState where
  seen_early := ∅
  last_report_ts := 0

/-- What `send_report` (lines 81-103) does once invoked: with no secrets
configured it silently returns; otherwise it attempts SMTP delivery and
on any exception reports a warning and returns normally.  In every case
control returns to the caller. -/
inductive SendOutcome where
  | skippedNoSecrets : SendOutcome
  | sent : SendOutcome
  | warnedError : SendOutcome
deriving DecidableEq

/-- Model of `send_report`, parametrised by whether SMTP secrets are
configured and whether the SMTP transport succeeds. -/
def send_report (secretsConfigured transportOk : Bool) : SendOutcome :=
  if secretsConfigured then
    if transportOk then SendOutcome.sent else SendOutcome.warnedError
  else SendOutcome.skippedNoSecrets

/-- `unseen_e = [s for s in curr_e_syms if s not in st.session_state["seen_early"]]`
(lines 291-294); the empty early list yields `unseen_e = []`. -/
def unseenOf (seen : Finset String) (early : List Row) : List String :=
  (early.map (·.Symbol)).filter (fun s => decide (s ∉ seen))

/-- Input of one notification step: the cycle's early rows, the wall clock
`time.time()` at the step, and the environment of `send_report`. -/
structure CycleInput where
  early : List Row
  now_ts : ℚ
  secretsConfigured : Bool
  transportOk : Bool
deriving DecidableEq

/-- The notification block (lines 304-310): when unseen early symbols
exist and the cooldown has elapsed, `send_report` is invoked and
`last_report_ts` is set to `now_ts`; in either case the unseen symbols
are added to `seen_early`.  The second component records whether (and
with what outcome) `send_report` was invoked. -/
def notifyCycle (cfg : Config) (st : NotifState) (cyc : CycleInput) :
    NotifState × Option SendOutcome :=
  let unseen_e := unseenOf st.seen_early cyc.early
  if unseen_e.isEmpty then (st, none)
  else if cfg.COOLDOWN_MIN * 60 ≤ cyc.now_ts - st.last_report_ts then
    ({ seen_early := st.seen_early ∪ unseen_e.toFinset, last_report_ts := cyc.now_ts },
     some (send_report cyc.secretsConfigured cyc.transportOk))
  else
    ({ seen_early := st.seen_early ∪ unseen_e.toFinset,
       last_report_ts := st.last_report_ts }, none)

/-- Iterated notification steps across successive cycles. -/
def runCycles (cfg : Config) (st : NotifState) : List CycleInput → NotifState
  | [] => st
  | cyc :: rest => runCycles cfg (notifyCycle cfg st cyc).1 rest

/-- Inserting `x` keeps the subsequence of elements sharing `x`'s key,
and puts `x` at its front: the elements skipped over all have a strictly
greater key. -/
theorem orderedInsert_filter_key_eq (key : Row → ℚ × ℚ × ℚ) (x : Row) (l : List Row) :
    (List.orderedInsert (keyGE key) x l).filter (fun y => decide (key y = key x)) =
      x :: l.filter (fun y => decide (key y = key x)) := by
  induction l with
  | nil => simp
  | cons b t ih =>
    by_cases h : keyGE key x b
    · simp [List.orderedInsert, h]
    · have hne : key b ≠ key x := fun e => h (show lexLe (key b) (key x) from e ▸ lexLe_refl _)
      simp [List.orderedInsert, h, hne, ih]

/-- Inserting an element with a different key leaves the subsequence of a
given key untouched. -/
theorem orderedInsert_filter_key_ne (key : Row → ℚ × ℚ × ℚ) (x : Row) (k : ℚ × ℚ × ℚ)
    (hk : key x ≠ k) (l : List Row) :
    (List.orderedInsert (keyGE key) x l).filter (fun y => decide (key y = k)) =
      l.filter (fun y => decide (key y = k)) := by
  induction l with
  | nil => simp [hk]
  | cons b t ih =>
    by_cases h : keyGE key x b <;> simp [List.orderedInsert, h, hk, List.filter_cons, ih]

/-- Stability of the descending sort: for every key value, the elements
carrying that key appear in the output in exactly their input order. -/
theorem sortDesc_filter_key (key : Row → ℚ × ℚ × ℚ) (l : List Row) (k : ℚ × ℚ × ℚ) :
    (sortDesc key l).filter (fun y => decide (key y = k)) =
      l.filter (fun y => decide (key y = k)) := by
  induction l with
  | nil => rfl
  | cons a t ih =>
    show (List.orderedInsert (keyGE key) a (List.insertionSort (keyGE key) t)).filter _ = _
    by_cases h : key a = k
    · subst h
      rw [orderedInsert_filter_key_eq]
      simpa using ih
    · rw [orderedInsert_filter_key_ne key a k h]
      simpa [h] using ih

/-- The descending sort output is sorted for the key's reversed
lexicographic order. -/
theorem sortDesc_sorted (key : Row → ℚ × ℚ × ℚ) (l : List Row) :
    SortedDescBy key (sortDesc key l) :=
  List.sorted_insertionSort (keyGE key) l

/-- A prefix of a descending-sorted list is descending-sorted. -/
theorem SortedDescBy.take {key : Row → ℚ × ℚ × ℚ} {l : List Row}
    (h : SortedDescBy key l) (n : ℕ) : SortedDescBy key (l.take n) :=
  List.Pairwise.sublist (List.take_sublist n l) h

/-- With `BOTTOM_TOP = 0` the bottoming block of the loop is skipped, so
no bottoms rows accumulate. -/
theorem classify_bottoms_nil (cfg : Config) (now_ms : ℚ) (data : List SymbolData)
    (h : cfg.BOTTOM_TOP = 0) : (classify cfg now_ms data).1 = [] := by
  induction data with
  | nil => rfl
  | cons d rest ih =>
    simp only [classify]
    cases hps : processSymbol cfg now_ms d with
    | none => exact ih
    | some q =>
      obtain ⟨b, e, f, row⟩ := q
      have hb : b = false := by
        unfold processSymbol at hps
        split at hps
        · exact Option.noConfusion hps
        · split at hps
          · exact Option.noConfusion hps
          · simp only [Option.some.injEq, Prod.mk.injEq] at hps
            rw [← hps.1, h]
            simp
      rw [hb]
      simpa using ih

/-- A bottoming-shaped row: valid, middling 15-minute momentum but strong
5-minute momentum. -/
def rowA : Row where
  Symbol := "AAA"
  Price := 1
  p1 := some 0
  p5 := some (1/2)
  p15 := some (1/2)
  nearHigh := some 0
  volx := some 1

/-- A bottoming-shaped row: strong 15-minute momentum but weak 5-minute
momentum. -/
def rowB : Row where
  Symbol := "BBB"
  Price := 1
  p1 := some 0
  p5 := some (1/5)
  p15 := some (3/2)
  nearHigh := some 0
  volx := some 1

/-- C1 counterexample: the published Bottoming list is NOT sorted by the
claimed descending key `(pct15m, pct5m, volumeSurgeRatio)`.  With the
default settings the sorting stage of `scan` (line 261) orders the
bottoms rows by `(pct5m, volumeSurgeRatio, -nearHighPct)`, so `rowA`
(pct5m 0.5, pct15m 0.5) is ranked before `rowB` (pct5m 0.2, pct15m 1.5),
violating descending order of `pct15m`. -/
theorem bottoms_not_sorted_by_claimed_key :
    ¬ SortedDescBy rankKey ((scanRank defaultConfig [rowA, rowB] [] []).1) := by
  with_unfolding_all decide

/-- C1 (amended): in every scan cycle the Early and Final ranked lists are
sorted descending by the lexicographic key `(pct15m, pct5m, volumeSurgeRatio)`
(`rankKey`, invalid entries counted as 0) and the Bottoming ranked list is
sorted descending by `(pct5m, volumeSurgeRatio, -nearHighPct)`
(`bottomRankKey`); for each tier the sort is stable: rows with identical
key tuples keep their provider-returned relative order. -/
theorem ranked_lists_sorted_and_stable (cfg : Config) (now_ms : ℚ) (data : List SymbolData) :
    SortedDescBy bottomRankKey (scan cfg now_ms data).1 ∧
    SortedDescBy rankKey (scan cfg now_ms data).2.1 ∧
    SortedDescBy rankKey (scan cfg now_ms data).2.2 ∧
    (∀ k, (sortDesc bottomRankKey (classify cfg now_ms data).1).filter
        (fun r => decide (bottomRankKey r = k)) =
      ((classify cfg now_ms data).1).filter (fun r => decide (bottomRankKey r = k))) ∧
    (∀ k, (sortDesc rankKey (classify cfg now_ms data).2.1).filter
        (fun r => decide (rankKey r = k)) =
      ((classify cfg now_ms data).2.1).filter (fun r => decide (rankKey r = k))) ∧
    (∀ k, ((scan cfg now_ms data).2.2).filter (fun r => decide (rankKey r = k)) =
      ((classify cfg now_ms data).2.2).filter (fun r => decide (rankKey r = k))) := by
  refine ⟨?_, ?_, ?_, fun k => sortDesc_filter_key _ _ k, fun k => sortDesc_filter_key _ _ k, ?_⟩
  · show SortedDescBy bottomRankKey (scanRank cfg _ _ _).1
    unfold scanRank
    by_cases h : 0 < cfg.BOTTOM_TOP
    · rw [if_pos h]
      exact (sortDesc_sorted _ _).take _
    · rw [if_neg h]
      rw [classify_bottoms_nil cfg now_ms data (Nat.eq_zero_of_not_pos h)]
      exact List.Pairwise.nil
  · exact (sortDesc_sorted _ _).take _
  · exact sortDesc_sorted _ _
  · exact fun k => sortDesc_filter_key _ _ k

/-- C3 counterexample: for a series whose volumes are
`[10, 10, 10, 10, 10, 60]` the code computes
`volumeSurgeRatio = sum(vols[-5:]) / (median * 5) = 100 / 50 = 2`,
which is not approximately `60 / (10 * 5) = 1.2` (it misses it by `0.8`). -/
theorem scenario_volx_not_claimed :
    volx_of [10, 10, 10, 10, 10, 60] = 2 ∧
    volx_of [10, 10, 10, 10, 10, 60] ≠ 12/10 ∧
    (4/5 : ℚ) ≤ |volx_of [10, 10, 10, 10, 10, 60] - 12/10| := by
  with_unfolding_all decide

/-- C3 (amended): for closes ending `[100,100,100,100,100,100,103]` the
computed `pct5m` is exactly `3.0`; for volumes `[10,10,10,10,10,60]` the
computed `volumeSurgeRatio` is `100 / (10 * 5) = 2.0` (not `1.2`: the
numerator is the sum of the last five volumes, not the last volume). -/
theorem scenario_values :
    last_n [100, 100, 100, 100, 100, 100, 103] 5 = some 3 ∧
    volx_of [10, 10, 10, 10, 10, 60] = 2 := by
  with_unfolding_all decide

/-- A flat all-10-volume candle at price 100. -/
def flatCandle : Candle where
  ts := 0
  o := 100
  hi := 100
  lo := 100
  c := 100
  v := 10

/-- The `j`-th candle of a 15-bar steady rise: close `100 + (j+1)/4`,
green body, volume 30 on the last five bars. -/
def riser (j : ℕ) : Candle where
  ts := 0
  o := 100 + (j + 1 : ℚ) * (1/4) - 1/10
  hi := 100 + (j + 1 : ℚ) * (1/4)
  lo := 100 + (j + 1 : ℚ) * (1/4) - 1/10
  c := 100 + (j + 1 : ℚ) * (1/4)
  v := if 10 ≤ j then 30 else 10

/-- A 60-candle series satisfying every Final (clean-risers) rule under
the default settings: `pct5m = 50/41 ≈ 1.22`, `pct15m = 3.75`,
`volumeSurgeRatio = 3`, price at the local high, three green rising
closes. -/
def demoSeries : List Candle :=
  List.replicate 45 flatCandle ++ (List.range 15).map riser

/-- A symbol carrying `demoSeries`, with the ticker fetch failing so the
last close is used as the price. -/
def demoSym : SymbolData where
  sym := "AAA/USD"
  ohlcv := demoSeries
  ticker := none

set_option maxRecDepth 400000 in
/-- C4 counterexample: a cycle in which sixteen symbols satisfy the Final
rules publishes a Final ranked list of sixteen entries.  The only
configured per-tier maxima in the source are `BOTTOM_TOP = 10` and
`EARLY_TOP = 15`; sixteen exceeds both, so the Final tier's published
list is not bounded by any configured maximum (the finals sort at line
263 has no truncation). -/
theorem finals_exceed_configured_maxima :
    ((scan defaultConfig 0 (List.replicate 16 demoSym)).2.2).length = 16 := by
  with_unfolding_all decide

/-- C4 (amended): per cycle the Bottoming list has at most `BOTTOM_TOP`
entries and the Early list at most `EARLY_TOP`; setting either maximum
to `0` empties that tier's output; the Final list is never truncated —
it keeps exactly one entry per symbol passing the Final rules. -/
theorem tier_truncation (cfg : Config) (now_ms : ℚ) (data : List SymbolData) :
    (scan cfg now_ms data).1.length ≤ cfg.BOTTOM_TOP ∧
    (scan cfg now_ms data).2.1.length ≤ cfg.EARLY_TOP ∧
    (scan { cfg with BOTTOM_TOP := 0 } now_ms data).1 = [] ∧
    (scan { cfg with EARLY_TOP := 0 } now_ms data).2.1 = [] ∧
    (scan cfg now_ms data).2.2.length = ((classify cfg now_ms data).2.2).length := by
  refine ⟨?_, ?_, ?_, ?_, ?_⟩
  · show ((scanRank cfg _ _ _).1).length ≤ cfg.BOTTOM_TOP
    unfold scanRank
    by_cases h : 0 < cfg.BOTTOM_TOP
    · rw [if_pos h]
      exact List.length_take_le _ _
    · rw [if_neg h]
      rw [classify_bottoms_nil cfg now_ms data (Nat.eq_zero_of_not_pos h)]
      exact Nat.zero_le _
  · exact List.length_take_le _ _
  · show (scanRank { cfg with BOTTOM_TOP := 0 } _ _ _).1 = []
    unfold scanRank
    rw [if_neg (lt_irrefl 0)]
    exact classify_bottoms_nil _ _ _ rfl
  · show ((sortDesc rankKey (classify { cfg with EARLY_TOP := 0 } now_ms data).2.1).take
        ({ cfg with EARLY_TOP := 0 } : Config).EARLY_TOP) = []
    exact List.take_zero _
  · exact List.length_insertionSort _ _

/-- `send_report` is invoked in a cycle exactly when unseen early symbols
exist and the cooldown has elapsed. -/
theorem notifyCycle_isSome_iff (cfg : Config) (st : NotifState) (cyc : CycleInput) :
    (notifyCycle cfg st cyc).2.isSome = true ↔
      ((unseenOf st.seen_early cyc.early).isEmpty = false ∧
        cfg.COOLDOWN_MIN * 60 ≤ cyc.now_ts - st.last_report_ts) := by
  simp only [notifyCycle]
  by_cases he : (unseenOf st.seen_early cyc.early).isEmpty
  · rw [if_pos he]
    simp [he]
  · rw [if_neg he]
    by_cases hc : cfg.COOLDOWN_MIN * 60 ≤ cyc.now_ts - st.last_report_ts
    · rw [if_pos hc]
      simp [Bool.not_eq_true] at he
      simp [he, hc]
    · rw [if_neg hc]
      simp [hc]

/-- When a cycle invokes `send_report`, the stored timestamp becomes the
cycle's wall clock. -/
theorem notifyCycle_last_of_sent (cfg : Config) (st : NotifState) (cyc : CycleInput)
    (h : (notifyCycle cfg st cyc).2.isSome = true) :
    (notifyCycle cfg st cyc).1.last_report_ts = cyc.now_ts := by
  simp only [notifyCycle] at h ⊢
  by_cases he : (unseenOf st.seen_early cyc.early).isEmpty
  · rw [if_pos he] at h
    simp at h
  · rw [if_neg he] at h ⊢
    by_cases hc : cfg.COOLDOWN_MIN * 60 ≤ cyc.now_ts - st.last_report_ts
    · rw [if_pos hc]
    · rw [if_neg hc] at h
      simp at h

/-- A cycle either keeps `last_report_ts` or sets it to its own time. -/
theorem notifyCycle_last_mem (cfg : Config) (st : NotifState) (cyc : CycleInput) :
    (notifyCycle cfg st cyc).1.last_report_ts = st.last_report_ts ∨
      (notifyCycle cfg st cyc).1.last_report_ts = cyc.now_ts := by
  simp only [notifyCycle]
  by_cases he : (unseenOf st.seen_early cyc.early).isEmpty
  · rw [if_pos he]
    exact Or.inl rfl
  · rw [if_neg he]
    by_cases hc : cfg.COOLDOWN_MIN * 60 ≤ cyc.now_ts - st.last_report_ts
    · rw [if_pos hc]
      exact Or.inr rfl
    · rw [if_neg hc]
      exact Or.inl rfl

/-- A lower bound on `last_report_ts` is preserved by any run of cycles
whose clocks respect the bound. -/
theorem runCycles_last_ge (cfg : Config) (cs : List CycleInput) (st : NotifState) (T : ℚ)
    (h1 : T ≤ st.last_report_ts) (h2 : ∀ cyc ∈ cs, T ≤ cyc.now_ts) :
    T ≤ (runCycles cfg st cs).last_report_ts := by
  induction cs generalizing st with
  | nil => exact h1
  | cons cyc rest ih =>
    refine ih (notifyCycle cfg st cyc).1 ?_ (fun c hc => h2 c (List.mem_cons_of_mem _ hc))
    rcases notifyCycle_last_mem cfg st cyc with h | h <;> rw [h]
    · exact h1
    · exact h2 cyc (List.mem_cons_self _ _)

/-- Every cycle leaves `seen_early` equal to its old value united with
the cycle's unseen symbols — also when the report was suppressed. -/
theorem notifyCycle_seen (cfg : Config) (st : NotifState) (cyc : CycleInput) :
    (notifyCycle cfg st cyc).1.seen_early =
      st.seen_early ∪ (unseenOf st.seen_early cyc.early).toFinset := by
  simp only [notifyCycle]
  by_cases he : (unseenOf st.seen_early cyc.early).isEmpty
  · rw [if_pos he, List.isEmpty_iff.mp he]
    simp
  · rw [if_neg he]
    by_cases hc : cfg.COOLDOWN_MIN * 60 ≤ cyc.now_ts - st.last_report_ts
    · rw [if_pos hc]
    · rw [if_neg hc]

/-- An eligible cycle whose SMTP transport fails. -/
def failCycle : CycleInput where
  early := [rowA]
  now_ts := 1000
  secretsConfigured := true
  transportOk := false

/-- C2 counterexample: in a cycle whose transport fails (`send_report`
catches the exception, reports a warning and returns), the notification
state IS modified: `last_report_ts` moves from `0` to the cycle time and
the unseen symbol is added to `seen_early`, exactly as on success. -/
theorem transport_failure_mutates_state :
    (notifyCycle defaultConfig initState failCycle).2 = some SendOutcome.warnedError ∧
    (notifyCycle defaultConfig initState failCycle).1.last_report_ts ≠
      initState.last_report_ts ∧
    "AAA" ∈ (notifyCycle defaultConfig initState failCycle).1.seen_early ∧
    "AAA" ∉ initState.seen_early := by
  with_unfolding_all decide

/-- C2 (amended): a transport failure is caught inside `send_report` and
surfaced as a warning only; the cycle's state transition is identical to
the success case — `last_report_ts := now` and the unseen symbols join
`seen_early` — so the failed report is not retried by later cycles. -/
theorem transport_failure_state_update (cfg : Config) (st : NotifState) (cyc : CycleInput)
    (h1 : (unseenOf st.seen_early cyc.early).isEmpty = false)
    (h2 : cfg.COOLDOWN_MIN * 60 ≤ cyc.now_ts - st.last_report_ts)
    (h3 : cyc.secretsConfigured = true)
    (h4 : cyc.transportOk = false) :
    (notifyCycle cfg st cyc).2 = some SendOutcome.warnedError ∧
    (notifyCycle cfg st cyc).1.last_report_ts = cyc.now_ts ∧
    (notifyCycle cfg st cyc).1.seen_early =
      st.seen_early ∪ (unseenOf st.seen_early cyc.early).toFinset := by
  unfold notifyCycle send_report
  rw [h3, h4]
  simp [h1, h2]

theorem transport_failure_state_update_witness :
    ((unseenOf initState.seen_early failCycle.early).isEmpty = false ∧
      defaultConfig.COOLDOWN_MIN * 60 ≤ failCycle.now_ts - initState.last_report_ts ∧
      failCycle.secretsConfigured = true ∧ failCycle.transportOk = false) ∧
    ((notifyCycle defaultConfig initState failCycle).2 = some SendOutcome.warnedError ∧
      (notifyCycle defaultConfig initState failCycle).1.last_report_ts = failCycle.now_ts ∧
      (notifyCycle defaultConfig initState failCycle).1.seen_early =
        initState.seen_early ∪ (unseenOf initState.seen_early failCycle.early).toFinset) :=
  ⟨⟨by with_unfolding_all decide, by with_unfolding_all decide, rfl, rfl⟩,
    transport_failure_state_update defaultConfig initState failCycle
      (by with_unfolding_all decide) (by with_unfolding_all decide) rfl rfl⟩

/-- C5: across any two cycles separated (together with everything between
them) by less than the cooldown, `send_report` is invoked at most once.
This holds for arbitrary early lists in the two cycles — in particular
for two cycles producing the same non-empty unseen symbol set — and
needs no assumption relating those lists. -/
theorem cooldown_at_most_once (cfg : Config) (st0 : NotifState) (ci cj : CycleInput)
    (mid : List CycleInput)
    (hmid : ∀ cyc ∈ mid, ci.now_ts ≤ cyc.now_ts)
    (hgap : cj.now_ts - ci.now_ts < cfg.COOLDOWN_MIN * 60) :
    ¬ ((notifyCycle cfg st0 ci).2.isSome = true ∧
        (notifyCycle cfg (runCycles cfg (notifyCycle cfg st0 ci).1 mid) cj).2.isSome = true) := by
  rintro ⟨hi, hj⟩
  have hlast1 : (notifyCycle cfg st0 ci).1.last_report_ts = ci.now_ts :=
    notifyCycle_last_of_sent cfg st0 ci hi
  have hge : ci.now_ts ≤ (runCycles cfg (notifyCycle cfg st0 ci).1 mid).last_report_ts :=
    runCycles_last_ge cfg mid (notifyCycle cfg st0 ci).1 ci.now_ts (le_of_eq hlast1.symm) hmid
  have hcool := ((notifyCycle_isSome_iff cfg _ cj).mp hj).2
  linarith

/-- First cycle of a send-suppression pair: sends at time 1000. -/
def cW1 : CycleInput where
  early := [rowA]
  now_ts := 1000
  secretsConfigured := true
  transportOk := true

/-- Second cycle 100 seconds later, within the 600-second cooldown. -/
def cW2 : CycleInput where
  early := [rowB]
  now_ts := 1100
  secretsConfigured := true
  transportOk := true

theorem cooldown_at_most_once_witness :
    (∀ cyc ∈ ([] : List CycleInput), cW1.now_ts ≤ cyc.now_ts) ∧
    (cW2.now_ts - cW1.now_ts < defaultConfig.COOLDOWN_MIN * 60) ∧
    ¬ ((notifyCycle defaultConfig initState cW1).2.isSome = true ∧
        (notifyCycle defaultConfig
          (runCycles defaultConfig (notifyCycle defaultConfig initState cW1).1 []) cW2).2.isSome =
          true) :=
  ⟨by simp, by with_unfolding_all decide,
    cooldown_at_most_once defaultConfig initState cW1 cW2 [] (by simp)
      (by with_unfolding_all decide)⟩

/-- C8: `seen_early` only ever grows: one cycle maps it to its union with
the cycle's unseen symbols (sent or suppressed alike), and any run of
cycles therefore keeps every previously seen symbol. -/
theorem seen_symbols_monotone (cfg : Config) (st : NotifState) (cyc : CycleInput)
    (cs : List CycleInput) :
    st.seen_early ⊆ (notifyCycle cfg st cyc).1.seen_early ∧
    (notifyCycle cfg st cyc).1.seen_early =
      st.seen_early ∪ (unseenOf st.seen_early cyc.early).toFinset ∧
    st.seen_early ⊆ (runCycles cfg st cs).seen_early := by
  refine ⟨?_, notifyCycle_seen cfg st cyc, ?_⟩
  · rw [notifyCycle_seen]
    exact Finset.subset_union_left
  · induction cs generalizing st with
    | nil => exact Finset.Subset.refl _
    | cons c rest ih =>
      refine Finset.Subset.trans ?_ (ih (notifyCycle cfg st c).1)
      rw [notifyCycle_seen]
      exact Finset.subset_union_left

/-- A first cycle at epoch second 60 with one unseen early symbol. -/
def bigCooldownCycle : CycleInput where
  early := [rowA]
  now_ts := 60
  secretsConfigured := true
  transportOk := true

/-- The default settings with a cooldown of 2 minutes. -/
def bigCooldownCfg : Config :=
  { defaultConfig with COOLDOWN_MIN := 2 }

/-- C10 counterexample: `last_report_ts` starts at `0`, yet a first cycle
with a non-empty unseen set does NOT always pass the cooldown check for
every positive cooldown: with a 2-minute cooldown and the clock at epoch
second 60, `now - 0 >= 120` fails and no report is sent. -/
theorem first_cycle_can_miss_cooldown :
    0 < bigCooldownCfg.COOLDOWN_MIN ∧
    (unseenOf initState.seen_early bigCooldownCycle.early).isEmpty = false ∧
    (notifyCycle bigCooldownCfg initState bigCooldownCycle).2 = none := by
  with_unfolding_all decide

/-- C10 (amended): since `last_report_ts` is initialised to `0`, the first
cycle with a non-empty unseen early set invokes the report send exactly
when `now >= cooldownMinutes * 60`; as `now` is epoch seconds, that holds
for every cooldown of up to `now / 60` minutes (for the default 10-minute
cooldown, at any clock past 1970-01-01 00:10 UTC), not for arbitrarily
large cooldown values. -/
theorem first_cycle_sends_iff (cfg : Config) (cyc : CycleInput)
    (h : (unseenOf initState.seen_early cyc.early).isEmpty = false) :
    initState.last_report_ts = 0 ∧
    ((notifyCycle cfg initState cyc).2.isSome = true ↔
      cfg.COOLDOWN_MIN * 60 ≤ cyc.now_ts) := by
  refine ⟨rfl, ?_⟩
  rw [notifyCycle_isSome_iff]
  have h0 : initState.last_report_ts = 0 := rfl
  rw [h0, sub_zero]
  simp [h]

/-- A first cycle at epoch second 1000 with one unseen early symbol. -/
def firstCycle : CycleInput where
  early := [rowB]
  now_ts := 1000
  secretsConfigured := true
  transportOk := true

theorem first_cycle_sends_iff_witness :
    ((unseenOf initState.seen_early firstCycle.early).isEmpty = false) ∧
    (initState.last_report_ts = 0 ∧
      ((notifyCycle defaultConfig initState firstCycle).2.isSome = true ↔
        defaultConfig.COOLDOWN_MIN * 60 ≤ firstCycle.now_ts)) :=
  ⟨by with_unfolding_all decide,
    first_cycle_sends_iff defaultConfig firstCycle (by with_unfolding_all decide)⟩

/-- C9: when the minimum close over the bottoming lookback window is zero
or negative, `dist_low` is defined to be `0` (maximally near the low),
so the near-low proximity bound `dist_low <= BOTTOM_NEAR_LOW_PCT_MAX`
holds automatically for any non-negative configured bound — such a
symbol is not excluded by the near-low rule. -/
theorem near_low_degenerate (window : List ℚ) (last_close : ℚ) (cfg : Config)
    (h1 : loc_low_of window ≤ 0) (h2 : 0 ≤ cfg.BOTTOM_NEAR_LOW_PCT_MAX) :
    dist_low_calc last_close (loc_low_of window) = 0 ∧
    dist_low_calc last_close (loc_low_of window) ≤ cfg.BOTTOM_NEAR_LOW_PCT_MAX := by
  have h0 : dist_low_calc last_close (loc_low_of window) = 0 := by
    unfold dist_low_calc
    rw [if_neg (not_lt.mpr h1)]
  refine ⟨h0, ?_⟩
  rw [h0]
  exact h2

theorem near_low_degenerate_witness :
    (loc_low_of [0, 5] ≤ 0 ∧ 0 ≤ defaultConfig.BOTTOM_NEAR_LOW_PCT_MAX) ∧
    (dist_low_calc 7 (loc_low_of [0, 5]) = 0 ∧
      dist_low_calc 7 (loc_low_of [0, 5]) ≤ defaultConfig.BOTTOM_NEAR_LOW_PCT_MAX) :=
  ⟨⟨by with_unfolding_all decide, by with_unfolding_all decide⟩,
    near_low_degenerate [0, 5] 7 defaultConfig (by with_unfolding_all decide)
      (by with_unfolding_all decide)⟩

/-- An invalid 1-minute percentage makes the bottoming rule fail. -/
theorem bottomPass_false_of_p1 {cfg : Config} {i : Indicators} (h : i.p1 = none) :
    bottomPass cfg i = false := by
  simp only [bottomPass, h]
  split <;> simp

/-- An invalid 5-minute percentage makes the bottoming rule fail. -/
theorem bottomPass_false_of_p5 {cfg : Config} {i : Indicators} (h : i.p5 = none) :
    bottomPass cfg i = false := by
  simp only [bottomPass, h]
  split <;> simp

/-- C6: with at least `n+1` closes and a nonzero reference close `pctN`
equals `(last - prior) / prior * 100` exactly; with fewer closes it is
invalid (`nan`); and an invalid value never satisfies a tier rule that
references it — invalid `pct5m` fails all three tiers, invalid `pct15m`
fails Early and Final, invalid `pct1m` fails Bottoming. -/
theorem pctN_spec (closes closes2 : List ℚ) (n n2 : ℕ) (cfg : Config)
    (i1 i2 i3 : Indicators)
    (h1 : n + 1 ≤ closes.length)
    (h2 : closes.getD (closes.length - (n + 1)) 0 ≠ 0)
    (h3 : closes2.length < n2 + 1)
    (h4 : i1.p5 = none) (h5 : i2.p15 = none) (h6 : i3.p1 = none) :
    last_n closes n =
      some ((closes.getD (closes.length - 1) 0 - closes.getD (closes.length - (n + 1)) 0) /
        closes.getD (closes.length - (n + 1)) 0 * 100) ∧
    last_n closes2 n2 = none ∧
    earlyPass cfg i1 = false ∧ finalPass cfg i1 = false ∧ bottomPass cfg i1 = false ∧
    earlyPass cfg i2 = false ∧ finalPass cfg i2 = false ∧
    bottomPass cfg i3 = false := by
  refine ⟨?_, ?_, ?_, ?_, ?_, ?_, ?_, ?_⟩
  · rw [last_n, if_neg (not_lt.mpr h1), pct, if_neg h2]
  · rw [last_n, if_pos h3]
  · simp [earlyPass, h4]
  · simp [finalPass, h4]
  · exact bottomPass_false_of_p5 h4
  · simp [earlyPass, h5]
  · simp [finalPass, h5]
  · exact bottomPass_false_of_p1 h6

/-- An indicators record whose percentage fields are all invalid. -/
def nanIndicators : Indicators where
  closes := []
  last_close := 0
  p1 := none
  p5 := none
  p15 := none
  p60 := none
  volx := 0
  dist_local := 0
  near_local := 100
  green3 := 0
  strict3 := false

theorem pctN_spec_witness :
    ((1 : ℕ) + 1 ≤ ([100, 103] : List ℚ).length ∧
      ([100, 103] : List ℚ).getD (([100, 103] : List ℚ).length - (1 + 1)) 0 ≠ 0 ∧
      ([] : List ℚ).length < 0 + 1 ∧
      nanIndicators.p5 = none ∧ nanIndicators.p15 = none ∧ nanIndicators.p1 = none) ∧
    (last_n [100, 103] 1 =
      some ((([100, 103] : List ℚ).getD (([100, 103] : List ℚ).length - 1) 0 -
          ([100, 103] : List ℚ).getD (([100, 103] : List ℚ).length - (1 + 1)) 0) /
        ([100, 103] : List ℚ).getD (([100, 103] : List ℚ).length - (1 + 1)) 0 * 100) ∧
      last_n ([] : List ℚ) 0 = none ∧
      earlyPass defaultConfig nanIndicators = false ∧
      finalPass defaultConfig nanIndicators = false ∧
      bottomPass defaultConfig nanIndicators = false ∧
      earlyPass defaultConfig nanIndicators = false ∧
      finalPass defaultConfig nanIndicators = false ∧
      bottomPass defaultConfig nanIndicators = false) :=
  ⟨⟨by with_unfolding_all decide, by with_unfolding_all decide, by with_unfolding_all decide,
      rfl, rfl, rfl⟩,
    pctN_spec [100, 103] [] 1 0 defaultConfig nanIndicators nanIndicators nanIndicators
      (by with_unfolding_all decide) (by with_unfolding_all decide)
      (by with_unfolding_all decide) rfl rfl rfl⟩

/-- Loosening of the Bottoming rule set: same lookback window and tier
gate, no minimum raised, no maximum lowered. -/
def bottomLoosens (a b : Config) : Prop :=
  b.BOTTOM_LOOKBACK_MIN = a.BOTTOM_LOOKBACK_MIN ∧
  b.BOTTOM_TOP = a.BOTTOM_TOP ∧
  a.BOTTOM_NEAR_LOW_PCT_MAX ≤ b.BOTTOM_NEAR_LOW_PCT_MAX ∧
  b.BOTTOM_UP1M_MIN ≤ a.BOTTOM_UP1M_MIN ∧
  b.BOTTOM_5M_MIN ≤ a.BOTTOM_5M_MIN ∧
  a.BOTTOM_5M_MAX ≤ b.BOTTOM_5M_MAX ∧
  b.BOTTOM_VOL_X_MIN ≤ a.BOTTOM_VOL_X_MIN

/-- Loosening of the Early rule set. -/
def earlyLoosens (a b : Config) : Prop :=
  a.EARLY_NEAR_LOCAL_PCT_MAX ≤ b.EARLY_NEAR_LOCAL_PCT_MAX ∧
  b.EARLY_5M_MIN ≤ a.EARLY_5M_MIN ∧
  a.EARLY_5M_MAX ≤ b.EARLY_5M_MAX ∧
  a.EARLY_15M_MAX ≤ b.EARLY_15M_MAX ∧
  b.EARLY_VOL_X_MIN ≤ a.EARLY_VOL_X_MIN

/-- Loosening of the Final rule set. -/
def finalLoosens (a b : Config) : Prop :=
  b.MIN_5M_PCT ≤ a.MIN_5M_PCT ∧
  b.MIN_15M_PCT ≤ a.MIN_15M_PCT ∧
  a.NEAR_HIGH_PCT ≤ b.NEAR_HIGH_PCT ∧
  b.VOL_SURGE_X ≤ a.VOL_SURGE_X

instance (a b : Config) : Decidable (bottomLoosens a b) := by
  unfold bottomLoosens; exact inferInstance

instance (a b : Config) : Decidable (earlyLoosens a b) := by
  unfold earlyLoosens; exact inferInstance

instance (a b : Config) : Decidable (finalLoosens a b) := by
  unfold finalLoosens; exact inferInstance

/-- Loosening the Bottoming bounds preserves a passing evaluation. -/
theorem bottomPass_mono {a b : Config} {i : Indicators} (hl : bottomLoosens a b)
    (h : bottomPass a i = true) : bottomPass b i = true := by
  obtain ⟨h1, h2, h3, h4, h5, h6, h7⟩ := hl
  simp only [bottomPass, h1] at h ⊢
  by_cases hg : 30 ≤ min a.BOTTOM_LOOKBACK_MIN (i.closes.length - 1)
  · rw [if_pos hg] at h ⊢
    cases hp1 : i.p1 with
    | none =>
      rw [hp1] at h
      simp at h
    | some v1 =>
      cases hp5 : i.p5 with
      | none =>
        rw [hp5] at h
        simp at h
      | some v5 =>
        rw [hp1, hp5] at h
        simp only [Bool.and_eq_true, decide_eq_true_eq] at h ⊢
        obtain ⟨⟨⟨⟨hA, hB⟩, hC⟩, hD⟩, hE⟩ := h
        refine ⟨⟨⟨⟨by linarith, by linarith⟩, ?_⟩, by linarith⟩, hE⟩
        exact ⟨by linarith [hC.1], by linarith [hC.2]⟩
  · rw [if_neg hg] at h
    exact absurd h (by simp)

/-- Loosening the Early bounds preserves a passing evaluation. -/
theorem earlyPass_mono {a b : Config} {i : Indicators} (hl : earlyLoosens a b)
    (h : earlyPass a i = true) : earlyPass b i = true := by
  obtain ⟨h1, h2, h3, h4, h5⟩ := hl
  simp only [earlyPass] at h ⊢
  cases hp5 : i.p5 with
  | none =>
    rw [hp5] at h
    simp at h
  | some v5 =>
    cases hp15 : i.p15 with
    | none =>
      rw [hp15] at h
      simp at h
    | some v15 =>
      rw [hp5, hp15] at h
      simp only [Bool.and_eq_true, decide_eq_true_eq] at h ⊢
      obtain ⟨⟨⟨⟨⟨hA, hB⟩, hC⟩, hD⟩, hE⟩, hF⟩ := h
      refine ⟨⟨⟨⟨⟨by linarith, ?_⟩, by linarith⟩, by linarith⟩, hE⟩, hF⟩
      exact ⟨by linarith [hB.1], by linarith [hB.2]⟩

/-- Loosening the Final bounds preserves a passing evaluation. -/
theorem finalPass_mono {a b : Config} {i : Indicators} (hl : finalLoosens a b)
    (h : finalPass a i = true) : finalPass b i = true := by
  obtain ⟨h1, h2, h3, h4⟩ := hl
  simp only [finalPass] at h ⊢
  cases hp5 : i.p5 with
  | none =>
    rw [hp5] at h
    simp at h
  | some v5 =>
    cases hp15 : i.p15 with
    | none =>
      rw [hp15] at h
      simp at h
    | some v15 =>
      rw [hp5, hp15] at h
      simp only [Bool.and_eq_true, decide_eq_true_eq] at h ⊢
      obtain ⟨⟨⟨⟨⟨hA, hB⟩, hC⟩, hD⟩, hE⟩, hF⟩ := h
      exact ⟨⟨⟨⟨⟨by linarith, by linarith⟩, by linarith⟩, by linarith⟩, hE⟩, hF⟩

/-- The skip gates of the loop body depend only on the data and the price
limits, not on any tier threshold. -/
theorem processSymbol_none_iff (cfg : Config) (now_ms : ℚ) (d : SymbolData) :
    processSymbol cfg now_ms d = none ↔
      ((too_old now_ms d.ohlcv 6 = true ∨ d.ohlcv.length < 60) ∨
        ((indicatorsOf d).last_close < cfg.MIN_PRICE ∨
          cfg.MAX_PRICE < (indicatorsOf d).last_close)) := by
  unfold processSymbol
  split_ifs with hA hB <;> simp_all

/-- An unskipped symbol stays unskipped under a config with the same
price limits, its row is unchanged, and each tier flag can only turn on
when the corresponding rule set is loosened. -/
theorem processSymbol_mono (a b : Config) (now_ms : ℚ) (d : SymbolData)
    (hminp : b.MIN_PRICE = a.MIN_PRICE) (hmaxp : b.MAX_PRICE = a.MAX_PRICE)
    (hb : bottomLoosens a b) (he : earlyLoosens a b) (hf : finalLoosens a b)
    (q : Bool × Bool × Bool × Row)
    (h : processSymbol a now_ms d = some q) :
    ∃ q' : Bool × Bool × Bool × Row,
      processSymbol b now_ms d = some q' ∧ q'.2.2.2 = q.2.2.2 ∧
      (q.1 = true → q'.1 = true) ∧ (q.2.1 = true → q'.2.1 = true) ∧
      (q.2.2.1 = true → q'.2.2.1 = true) := by
  unfold processSymbol at h ⊢
  split at h
  · exact Option.noConfusion h
  · rename_i hg1
    split at h
    · exact Option.noConfusion h
    · rename_i hg2
      rw [if_neg hg1, if_neg (by rw [hminp, hmaxp]; exact hg2)]
      injection h with h'
      refine ⟨_, rfl, ?_, ?_, ?_, ?_⟩
      · rw [← h']
      · rw [← h']
        intro hq
        rw [Bool.and_eq_true] at hq ⊢
        refine ⟨?_, bottomPass_mono hb hq.2⟩
        rw [hb.2.1]
        exact hq.1
      · rw [← h']
        exact fun hq => earlyPass_mono he hq
      · rw [← h']
        exact fun hq => finalPass_mono hf hq

/-- One step of `classify` on a skipped symbol. -/
theorem classify_cons_none (cfg : Config) (now_ms : ℚ) (d : SymbolData)
    (rest : List SymbolData) (h : processSymbol cfg now_ms d = none) :
    classify cfg now_ms (d :: rest) = classify cfg now_ms rest := by
  simp [classify, h]

/-- One step of `classify` on a classified symbol. -/
theorem classify_cons_some (cfg : Config) (now_ms : ℚ) (d : SymbolData)
    (rest : List SymbolData) (qb qe qf : Bool) (row : Row)
    (h : processSymbol cfg now_ms d = some (qb, qe, qf, row)) :
    classify cfg now_ms (d :: rest) =
      ((if qb then row :: (classify cfg now_ms rest).1 else (classify cfg now_ms rest).1),
       (if qe then row :: (classify cfg now_ms rest).2.1 else (classify cfg now_ms rest).2.1),
       (if qf then row :: (classify cfg now_ms rest).2.2 else (classify cfg now_ms rest).2.2)) := by
  simp [classify, h]

/-- Symbols placed in the Bottoming tier during one cycle. -/
def bottomMembers (cfg : Config) (now_ms : ℚ) (data : List SymbolData) : List String :=
  ((classify cfg now_ms data).1).map (·.Symbol)

/-- Symbols placed in the Early tier during one cycle. -/
def earlyMembers (cfg : Config) (now_ms : ℚ) (data : List SymbolData) : List String :=
  ((classify cfg now_ms data).2.1).map (·.Symbol)

/-- Symbols placed in the Final tier during one cycle. -/
def finalMembers (cfg : Config) (now_ms : ℚ) (data : List SymbolData) : List String :=
  ((classify cfg now_ms data).2.2).map (·.Symbol)

/-- Auxiliary subset step for one conditional cons. -/
theorem subset_if_cons (x : Row) (p q : Bool) (L1 L2 : List Row)
    (hpq : p = true → q = true)
    (hsub : L1.map (·.Symbol) ⊆ L2.map (·.Symbol)) :
    (if p then x :: L1 else L1).map (·.Symbol) ⊆
      (if q then x :: L2 else L2).map (·.Symbol) := by
  cases p with
  | false =>
    rw [if_neg (by simp)]
    cases q with
    | false =>
      rw [if_neg (by simp)]
      exact hsub
    | true =>
      rw [if_pos rfl, List.map_cons]
      exact fun s hs => List.mem_cons_of_mem _ (hsub hs)
  | true =>
    rw [if_pos rfl, if_pos (hpq rfl), List.map_cons, List.map_cons]
    intro s hs
    rcases List.mem_cons.mp hs with h | h
    · exact List.mem_cons.mpr (Or.inl h)
    · exact List.mem_cons.mpr (Or.inr (hsub h))

/-- C7: with the price limits fixed, loosening the bounds of the tier
rule sets (each minimum not raised, each maximum not lowered — in
particular, loosening any single bound) can only add symbols to each
tier's membership for the same input data, never remove any. -/
theorem tier_membership_monotone (a b : Config) (now_ms : ℚ) (data : List SymbolData)
    (hminp : b.MIN_PRICE = a.MIN_PRICE) (hmaxp : b.MAX_PRICE = a.MAX_PRICE)
    (hb : bottomLoosens a b) (he : earlyLoosens a b) (hf : finalLoosens a b) :
    bottomMembers a now_ms data ⊆ bottomMembers b now_ms data ∧
    earlyMembers a now_ms data ⊆ earlyMembers b now_ms data ∧
    finalMembers a now_ms data ⊆ finalMembers b now_ms data := by
  induction data with
  | nil => exact ⟨fun x hx => hx, fun x hx => hx, fun x hx => hx⟩
  | cons d rest ih =>
    obtain ⟨ihB, ihE, ihF⟩ := ih
    cases hpa : processSymbol a now_ms d with
    | none =>
      have hpb : processSymbol b now_ms d = none := by
        rw [processSymbol_none_iff] at hpa ⊢
        rw [hminp, hmaxp]
        exact hpa
      refine ⟨?_, ?_, ?_⟩ <;>
        simp only [bottomMembers, earlyMembers, finalMembers,
          classify_cons_none a now_ms d rest hpa, classify_cons_none b now_ms d rest hpb]
      · exact ihB
      · exact ihE
      · exact ihF
    | some q =>
      obtain ⟨qb, qe, qf, qrow⟩ := q
      obtain ⟨q', hpb, hrow, hq1, hq2, hq3⟩ :=
        processSymbol_mono a b now_ms d hminp hmaxp hb he hf (qb, qe, qf, qrow) hpa
      obtain ⟨qb', qe', qf', qrow'⟩ := q'
      simp only at hrow hq1 hq2 hq3
      rw [hrow] at hpb
      refine ⟨?_, ?_, ?_⟩ <;>
        simp only [bottomMembers, earlyMembers, finalMembers,
          classify_cons_some a now_ms d rest qb qe qf qrow hpa,
          classify_cons_some b now_ms d rest qb' qe' qf' qrow hpb]
      · exact subset_if_cons qrow qb qb' _ _ hq1 ihB
      · exact subset_if_cons qrow qe qe' _ _ hq2 ihE
      · exact subset_if_cons qrow qf qf' _ _ hq3 ihF

/-- The default settings with the Early volume-surge floor lowered from
1.5 to 1 (a single loosened bound). -/
def loosenedConfig : Config :=
  { defaultConfig with EARLY_VOL_X_MIN := 1 }

theorem tier_membership_monotone_witness :
    (loosenedConfig.MIN_PRICE = defaultConfig.MIN_PRICE ∧
      loosenedConfig.MAX_PRICE = defaultConfig.MAX_PRICE ∧
      bottomLoosens defaultConfig loosenedConfig ∧
      earlyLoosens defaultConfig loosenedConfig ∧
      finalLoosens defaultConfig loosenedConfig) ∧
    (bottomMembers defaultConfig 0 [demoSym] ⊆ bottomMembers loosenedConfig 0 [demoSym] ∧
      earlyMembers defaultConfig 0 [demoSym] ⊆ earlyMembers loosenedConfig 0 [demoSym] ∧
      finalMembers defaultConfig 0 [demoSym] ⊆ finalMembers loosenedConfig 0 [demoSym]) :=
  ⟨⟨rfl, rfl, by with_unfolding_all decide, by with_unfolding_all decide,
      by with_unfolding_all decide⟩,
    tier_membership_monotone defaultConfig loosenedConfig 0 [demoSym] rfl rfl
      (by with_unfolding_all decide) (by with_unfolding_all decide)
      (by with_unfolding_all decide)⟩
